import Mathlib

set_option autoImplicit false

namespace Iter

/-!
A shallow embedding of the core of the `iter` library: the handle registry
(`registry.hpp`), the worker pool (`thread_pool.hpp`), the inotify-backed
file monitor (`filemonitor/detail/inotify/file_monitor_impl.hpp`) and the
hot-reload file keeper (`datamanager/file_keeper.hpp`).

Ordered C++ maps (`std::map <int, int>`, and the registry map as far as the
monitor uses it) are modelled as association lists with `find`, `emplace`
(insert only if the key is absent) and `erase` operations; integers are
modelled as `Int` (signed overflow is undefined behaviour in the source, so
the model is unbounded), bit masks as `Nat` with `&&&`.
-/

/-- Lookup of a key in an association list, the model of `std::map::find`. -/
def mapFind {α : Type} : List (Int × α) → Int → Option α
  | [], _ => none
  | (k', v) :: rest, k => if k' = k then some v else mapFind rest k

/-- Model of `std::map::emplace`: inserts `(k, v)` only when `k` is absent. -/
def mapEmplace {α : Type} (m : List (Int × α)) (k : Int) (v : α) : List (Int × α) :=
  match mapFind m k with
  | some _ => m
  | none => m ++ [(k, v)]

/-- Model of `std::map::erase` by key. -/
def mapErase {α : Type} (m : List (Int × α)) (k : Int) : List (Int × α) :=
  m.filter (fun p => p.1 != k)

/-- Keys of an association list. -/
def mapKeys {α : Type} (m : List (Int × α)) : List Int :=
  m.map Prod.fst

theorem mapFind_eq_none_iff {α : Type} (m : List (Int × α)) (k : Int) :
    mapFind m k = none ↔ k ∉ mapKeys m := by
  induction m with
  | nil => simp [mapFind, mapKeys]
  | cons p rest ih =>
    obtain ⟨k', v⟩ := p
    show (if k' = k then some v else mapFind rest k) = none ↔ k ∉ k' :: mapKeys rest
    by_cases hk : k' = k
    · simp [hk]
    · simp only [if_neg hk, List.mem_cons]
      rw [ih]
      constructor
      · rintro h (rfl | hh)
        · exact hk rfl
        · exact h hh
      · intro h hh
        exact h (Or.inr hh)

theorem mapFind_mem {α : Type} {m : List (Int × α)} {k : Int} {v : α}
    (h : mapFind m k = some v) : (k, v) ∈ m := by
  induction m with
  | nil => simp [mapFind] at h
  | cons p rest ih =>
    obtain ⟨k', v'⟩ := p
    by_cases hk : k' = k
    · subst hk
      simp [mapFind] at h
      simp [h]
    · simp [mapFind, hk] at h
      exact List.mem_cons_of_mem _ (ih h)

theorem mem_mapKeys_of_mem {α : Type} {m : List (Int × α)} {p : Int × α}
    (h : p ∈ m) : p.1 ∈ mapKeys m :=
  List.mem_map_of_mem Prod.fst h

theorem mapFind_append_right {α : Type} (m : List (Int × α)) (k : Int) (v : α)
    (h : mapFind m k = none) : mapFind (m ++ [(k, v)]) k = some v := by
  induction m with
  | nil => simp [mapFind]
  | cons p rest ih =>
    obtain ⟨k', v'⟩ := p
    by_cases hk : k' = k
    · simp [mapFind, hk] at h
    · simp [mapFind, hk] at h ⊢
      exact ih h

theorem mapFind_emplace_self_isSome {α : Type} (m : List (Int × α)) (k : Int) (v : α) :
    (mapFind (mapEmplace m k v) k).isSome = true := by
  unfold mapEmplace
  cases hf : mapFind m k with
  | some w => simp [hf]
  | none => simp [mapFind_append_right m k v hf]

theorem mem_mapErase_iff {α : Type} (m : List (Int × α)) (k : Int) (p : Int × α) :
    p ∈ mapErase m k ↔ p ∈ m ∧ p.1 ≠ k := by
  simp [mapErase, List.mem_filter]

theorem mapKeys_erase_sublist {α : Type} (m : List (Int × α)) (k : Int) :
    (mapKeys (mapErase m k)).Sublist (mapKeys m) :=
  List.Sublist.map Prod.fst (List.filter_sublist m)

theorem nodup_keys_unique {α : Type} {m : List (Int × α)} {k : Int} {a b : α}
    (hnd : (mapKeys m).Nodup) (ha : (k, a) ∈ m) (hb : (k, b) ∈ m) : a = b := by
  induction m with
  | nil => simp at ha
  | cons p rest ih =>
    obtain ⟨kp, vp⟩ := p
    rw [show mapKeys ((kp, vp) :: rest) = kp :: mapKeys rest from rfl,
      List.nodup_cons] at hnd
    rcases List.mem_cons.mp ha with ha1 | ha2 <;>
      rcases List.mem_cons.mp hb with hb1 | hb2
    · cases ha1
      simp at hb1
      exact hb1.symm
    · cases ha1
      exact absurd (mem_mapKeys_of_mem hb2) hnd.1
    · cases hb1
      exact absurd (mem_mapKeys_of_mem ha2) hnd.1
    · exact ih hnd.2 ha2 hb2

/-! ## The handle registry (`registry.hpp`)

`Registry <Node, Handle, Map>` holds `register_map_` and an integer counter
`register_handle_counter_`.  `Register` increments the counter, emplaces the
node under the new counter value and returns it; `Remove` erases the handle
from the map and never touches the counter. -/

structure RegistryState (Node : Type) where
  register_map_ : List (Int × Node)
  register_handle_counter_ : Int

namespace Registry

/-- `Registry::Register`: `register_handle_counter_ ++; register_map_.emplace(...)`. -/
def Register {Node : Type} (s : RegistryState Node) (node : Node) :
    Int × RegistryState Node :=
  let c := s.register_handle_counter_ + 1
  (c, { register_map_ := mapEmplace s.register_map_ c node,
        register_handle_counter_ := c })

/-- `Registry::Remove`: `register_map_.erase(handle)`. -/
def Remove {Node : Type} (s : RegistryState Node) (handle : Int) : RegistryState Node :=
  { s with register_map_ := mapErase s.register_map_ handle }

/-- `Registry::IsRegistered`: membership in `register_map_`. -/
def IsRegistered {Node : Type} (s : RegistryState Node) (handle : Int) : Bool :=
  (mapFind s.register_map_ handle).isSome

end Registry

/-- One operation on a `Registry`. -/
inductive RegOp (Node : Type) where
  | register (node : Node)
  | remove (handle : Int)

/-- Runs a sequence of registry operations, collecting the handles returned
by the successive `Register` calls in order. -/
def runRegOps {Node : Type} (s : RegistryState Node) :
    List (RegOp Node) → RegistryState Node × List Int
  | [] => (s, [])
  | RegOp.register node :: ops =>
      let r := Registry.Register s node
      let rest := runRegOps r.2 ops
      (rest.1, r.1 :: rest.2)
  | RegOp.remove h :: ops => runRegOps (Registry.Remove s h) ops

theorem runRegOps_handles_gt {Node : Type} (ops : List (RegOp Node))
    (s : RegistryState Node) :
    ∀ h ∈ (runRegOps s ops).2, s.register_handle_counter_ < h := by
  induction ops generalizing s with
  | nil => simp [runRegOps]
  | cons op ops ih =>
    cases op with
    | register node =>
      intro h hmem
      simp only [runRegOps, Registry.Register, List.mem_cons] at hmem
      rcases hmem with rfl | hmem
      · omega
      · have := ih _ h hmem
        simp at this
        omega
    | remove k =>
      intro h hmem
      simp only [runRegOps] at hmem
      have := ih _ h hmem
      simpa [Registry.Remove] using this

theorem runRegOps_handles_pairwise {Node : Type} (ops : List (RegOp Node))
    (s : RegistryState Node) :
    ((runRegOps s ops).2).Pairwise (· < ·) := by
  induction ops generalizing s with
  | nil => simp [runRegOps]
  | cons op ops ih =>
    cases op with
    | register node =>
      simp only [runRegOps, Registry.Register]
      refine List.Pairwise.cons ?_ (ih _)
      intro h hmem
      have := runRegOps_handles_gt ops _ h hmem
      simp at this
      omega
    | remove k =>
      simpa [runRegOps] using ih (Registry.Remove s k)

/-- C3: for every finite sequence of `Registry` operations, the handles
returned by the successive `Register` calls are strictly increasing
(each adjacent pair, hence the whole sequence), and no handle is ever
issued twice — `Remove` never makes a handle available for reuse. -/
theorem registry_handles_strictly_increasing_never_reused {Node : Type}
    (s : RegistryState Node) (ops : List (RegOp Node)) :
    List.Chain' (· < ·) (runRegOps s ops).2 ∧ ((runRegOps s ops).2).Nodup :=
  ⟨(runRegOps_handles_pairwise ops s).chain',
   (runRegOps_handles_pairwise ops s).imp (fun h => ne_of_lt h)⟩

/-! ## The inotify-backed file monitor (`file_monitor_impl.hpp`)

`FileMonitor::Impl` holds a `Registry <Node>` of watch entries, the two
descriptor maps `oid_wfd_map_` and `wfd_oid_map_`, and the inotify file
descriptor.  The kernel inotify object is modelled explicitly: per
inotify(7), `inotify_add_watch` on a path that is already watched returns
the descriptor of the existing watch; otherwise a fresh descriptor is
allocated.  A per-call oracle `osOk` models the kernel refusing a watch
(missing path, permissions, resource limits), in which case
`inotify_add_watch` returns -1. -/

/-- A watch entry: path, interest mask and callback (an opaque token). -/
structure Node where
  filename : String
  event_mask : Nat
  callback : Nat
deriving DecidableEq

/-- State of the kernel inotify object: active watches (descriptor, path)
and the next fresh descriptor (inotify descriptors are positive). -/
structure InotifyState where
  watches : List (Int × String)
  next_wd : Int
deriving DecidableEq

/-- Descriptor of the existing watch on `filename`, if any. -/
def inotifyFindPath : List (Int × String) → String → Option Int
  | [], _ => none
  | (wd, p) :: rest, f => if p = f then some wd else inotifyFindPath rest f

/-- Model of a successful `inotify_add_watch`: returns the existing
descriptor when the path is already watched, else a fresh one. -/
def inotify_add_watch (os : InotifyState) (filename : String) : Int × InotifyState :=
  match inotifyFindPath os.watches filename with
  | some wd => (wd, os)
  | none => (os.next_wd,
      { watches := os.watches ++ [(os.next_wd, filename)],
        next_wd := os.next_wd + 1 })

/-- Model of `inotify_rm_watch`. -/
def inotify_rm_watch (os : InotifyState) (wd : Int) : InotifyState :=
  { os with watches := mapErase os.watches wd }

/-- State of `FileMonitor::Impl` together with the kernel object it drives. -/
structure FMState where
  registry_ : RegistryState Node
  oid_wfd_map_ : List (Int × Int)
  wfd_oid_map_ : List (Int × Int)
  os : InotifyState

namespace FMState

/-- `FileMonitor::Impl::AddWatcher`: asks the kernel for a watch; on failure
(`watcher_fd == -1`) returns false leaving the maps untouched, otherwise
emplaces the pair into both descriptor maps and returns true. -/
def AddWatcher (st : FMState) (owner_id : Int) (filename : String)
    (osOk : Bool) : Bool × FMState :=
  if osOk then
    let r := inotify_add_watch st.os filename
    (true, { st with
      os := r.2,
      oid_wfd_map_ := mapEmplace st.oid_wfd_map_ owner_id r.1,
      wfd_oid_map_ := mapEmplace st.wfd_oid_map_ r.1 owner_id })
  else (false, st)

/-- `FileMonitor::Impl::Register`: registers the node in the registry first,
then calls `AddWatcher`; returns the owner id on success and -1 on failure. -/
def Register (st : FMState) (node : Node) (osOk : Bool) : Int × FMState :=
  let r := Registry.Register st.registry_ node
  let a := AddWatcher { st with registry_ := r.2 } r.1 node.filename osOk
  (if a.1 then r.1 else -1, a.2)

/-- `FileMonitor::Impl::Remove`: looks the owner up in `oid_wfd_map_`;
if absent does nothing, otherwise erases both map entries and releases the
kernel watch.  The registry is not touched. -/
def Remove (st : FMState) (owner_id : Int) : FMState :=
  match mapFind st.oid_wfd_map_ owner_id with
  | none => st
  | some watcher_fd =>
      { st with
        oid_wfd_map_ := mapErase st.oid_wfd_map_ owner_id,
        wfd_oid_map_ := mapErase st.wfd_oid_map_ watcher_fd,
        os := inotify_rm_watch st.os watcher_fd }

/-- `FileMonitor::Impl::IsRegistered`: membership of the owner id in the
registry map. -/
def IsRegistered (st : FMState) (owner_id : Int) : Bool :=
  (mapFind st.registry_.register_map_ owner_id).isSome

end FMState

/-- A raw record read from the inotify descriptor (already split by the
monitoring loop): watch descriptor, event mask, cookie, optional name. -/
structure InotifyEvent where
  wd : Int
  mask : Nat
  cookie : Nat
  name : String
deriving DecidableEq

/-- The event handed to a callback (`FileEvent` in `file_monitor.hpp`). -/
structure FileEvent where
  mask : Nat
  cookie : Nat
  name : String
deriving DecidableEq

/-- Body of the drain loop in `FileMonitor::Impl::Callback` for one decoded
record: resolve the owner via `wfd_oid_map_` (unknown descriptors are
skipped), look the node up in the registry (missing entries are skipped),
filter by `node.event_mask & event.mask`, and on a match dispatch
`(node.callback, file_event)` to the thread pool.  The returned option is
the dispatched task, if any. -/
def FMState.ProcessEvent (st : FMState) (event : InotifyEvent) :
    Option (Nat × FileEvent) :=
  match mapFind st.wfd_oid_map_ event.wd with
  | none => none
  | some owner_id =>
      match mapFind st.registry_.register_map_ owner_id with
      | none => none
      | some node =>
          if node.event_mask &&& event.mask = 0 then none
          else some (node.callback,
            { mask := event.mask, cookie := event.cookie, name := event.name })

/-- One pass of the drain loop over a batch of decoded records: the list of
tasks dispatched to the thread pool. -/
def FMState.ProcessBatch (st : FMState) (events : List InotifyEvent) :
    List (Nat × FileEvent) :=
  events.filterMap st.ProcessEvent

/-- inotify event-mask constants from `sys/inotify.h`. -/
def IN_MODIFY : Nat := 0x00000002

def IN_CREATE : Nat := 0x00000100

def IN_DELETE : Nat := 0x00000200

def IN_Q_OVERFLOW : Nat := 0x00004000

/-- A freshly constructed monitor: empty registry (counter starting at 0),
empty descriptor maps, no kernel watches. -/
def fmInit : FMState :=
  { registry_ := { register_map_ := [], register_handle_counter_ := 0 },
    oid_wfd_map_ := [],
    wfd_oid_map_ := [],
    os := { watches := [], next_wd := 1 } }

/-- A monitor with one successful registration: owner id 1, interest mask
`IN_MODIFY ||| IN_DELETE`, callback token 7, watching descriptor 1. -/
def fmSt1 : FMState :=
  (FMState.Register fmInit
    { filename := "cfg.txt", event_mask := IN_MODIFY ||| IN_DELETE, callback := 7 }
    true).2

/-- C8: for a decoded record whose descriptor resolves to an owner and whose
owner is found in the registry, the loop dispatches the callback iff
`node.event_mask &&& event.mask` is nonzero; in particular a `MODIFY`
registration never fires on a create-only event, and a `MODIFY ||| DELETE`
registration fires on both modify and delete events. -/
theorem callback_dispatched_iff_mask_matches (st : FMState) (e : InotifyEvent)
    (oid : Int) (node : Node)
    (hwd : mapFind st.wfd_oid_map_ e.wd = some oid)
    (hreg : mapFind st.registry_.register_map_ oid = some node) :
    ((st.ProcessEvent e).isSome ↔ node.event_mask &&& e.mask ≠ 0) ∧
    (node.event_mask = IN_MODIFY → e.mask = IN_CREATE → st.ProcessEvent e = none) ∧
    (node.event_mask = IN_MODIFY ||| IN_DELETE →
      e.mask = IN_MODIFY ∨ e.mask = IN_DELETE → (st.ProcessEvent e).isSome = true) := by
  simp only [FMState.ProcessEvent, hwd, hreg]
  refine ⟨?_, ?_, ?_⟩
  · by_cases h : node.event_mask &&& e.mask = 0 <;> simp [h]
  · intro hm he
    rw [hm, he]
    simp [show IN_MODIFY &&& IN_CREATE = 0 by decide]
  · rintro hm (he | he) <;> rw [hm, he]
    · simp [show (IN_MODIFY ||| IN_DELETE) &&& IN_MODIFY ≠ 0 by decide]
    · simp [show (IN_MODIFY ||| IN_DELETE) &&& IN_DELETE ≠ 0 by decide]

/-- Witness for C8 at a concrete monitor state and event. -/
theorem callback_dispatched_iff_mask_matches_witness :
    (mapFind fmSt1.wfd_oid_map_ (1 : Int) = some 1 ∧
      mapFind fmSt1.registry_.register_map_ 1 =
        some { filename := "cfg.txt", event_mask := IN_MODIFY ||| IN_DELETE,
               callback := 7 }) ∧
    ((fmSt1.ProcessEvent { wd := 1, mask := IN_MODIFY, cookie := 0, name := "" }).isSome ↔
      (IN_MODIFY ||| IN_DELETE) &&& IN_MODIFY ≠ 0) :=
  ⟨⟨by decide, by decide⟩,
   (callback_dispatched_iff_mask_matches fmSt1
     { wd := 1, mask := IN_MODIFY, cookie := 0, name := "" } 1
     { filename := "cfg.txt", event_mask := IN_MODIFY ||| IN_DELETE, callback := 7 }
     (by decide) (by decide)).1⟩

/-- C1: an overflow record arrives with `wd == -1` and mask `IN_Q_OVERFLOW`;
the drain loop has no overflow handling, so the lookup of descriptor -1 in
`wfd_oid_map_` misses and the record is silently skipped: with one owner
registered, nothing is dispatched — no full-rescan broadcast. -/
theorem overflow_record_silently_dropped :
    FMState.IsRegistered fmSt1 1 = true ∧
    fmSt1.ProcessBatch [{ wd := -1, mask := IN_Q_OVERFLOW, cookie := 0, name := "" }]
      = [] := by decide

/-- C2 counterexample: a registration whose `inotify_add_watch` fails returns
-1, but the state is not the same as before the call — the node registered
before `AddWatcher` stays in the registry, so `IsRegistered(1)` flips from
false to true. -/
theorem register_failure_claim_counterexample :
    (FMState.Register fmInit
      { filename := "missing.txt", event_mask := IN_MODIFY, callback := 7 } false).1
      = -1 ∧
    FMState.IsRegistered fmInit 1 = false ∧
    FMState.IsRegistered
      (FMState.Register fmInit
        { filename := "missing.txt", event_mask := IN_MODIFY, callback := 7 } false).2
      1 = true := by decide

/-- C2 amended: when the OS watch cannot be established, `Register` returns
-1 (no handle is issued) and the descriptor maps and kernel watches are
unchanged; the registry however retains the entry created before
`AddWatcher` was attempted, so `IsRegistered` reports the consumed id as
present. -/
theorem register_failure_no_handle_registry_retained (st : FMState) (node : Node) :
    (st.Register node false).1 = -1 ∧
    (st.Register node false).2.oid_wfd_map_ = st.oid_wfd_map_ ∧
    (st.Register node false).2.wfd_oid_map_ = st.wfd_oid_map_ ∧
    (st.Register node false).2.os = st.os ∧
    (st.Register node false).2.IsRegistered
      (st.registry_.register_handle_counter_ + 1) = true := by
  unfold FMState.Register FMState.AddWatcher
  simp [Registry.Register, FMState.IsRegistered, mapFind_emplace_self_isSome]

/-- C5: after a successful registration (owner id 1) followed by
`Remove(1)`, both descriptor maps are empty but the owner is still reported
as registered — `Remove` erases the descriptor maps only and never removes
the registry entry. -/
theorem remove_leaves_owner_registered :
    (FMState.Remove fmSt1 1).oid_wfd_map_ = [] ∧
    (FMState.Remove fmSt1 1).wfd_oid_map_ = [] ∧
    FMState.IsRegistered (FMState.Remove fmSt1 1) 1 = true := by decide

/-- A monitor with two successful registrations of the same path: per
inotify semantics the second `inotify_add_watch` returns the descriptor of
the existing watch. -/
def fmDup : FMState :=
  (FMState.Register
    (FMState.Register fmInit
      { filename := "dup.txt", event_mask := IN_MODIFY, callback := 1 } true).2
    { filename := "dup.txt", event_mask := IN_MODIFY, callback := 2 } true).2

/-- C4 counterexample: after two registrations of the same path, owner 2 is
mapped to descriptor 1 in `oid_wfd_map_`, but `wfd_oid_map_` still maps
descriptor 1 to owner 1 (the second `emplace` was a silent no-op): the two
maps do not contain the same pairs. -/
theorem duplicate_path_counterexample :
    fmDup.oid_wfd_map_ = [(1, 1), (2, 1)] ∧
    fmDup.wfd_oid_map_ = [(1, 1)] := by decide

/-- One operation on a `FileMonitor`; `osOk` is the oracle for whether the
kernel accepts the watch on a `register`. -/
inductive FMOp where
  | register (node : Node) (osOk : Bool)
  | remove (owner_id : Int)

/-- Runs a sequence of monitor operations. -/
def runFMOps (st : FMState) : List FMOp → FMState
  | [] => st
  | FMOp.register node osOk :: ops => runFMOps (st.Register node osOk).2 ops
  | FMOp.remove oid :: ops => runFMOps (st.Remove oid) ops

/-- Holds when every `register` in the sequence names a path that is not
currently watched by the kernel at that point (so `inotify_add_watch`
allocates a fresh descriptor rather than returning an existing one). -/
def freshPaths (st : FMState) : List FMOp → Bool
  | [] => true
  | FMOp.register node osOk :: ops =>
      (inotifyFindPath st.os.watches node.filename).isNone &&
        freshPaths (st.Register node osOk).2 ops
  | FMOp.remove oid :: ops => freshPaths (st.Remove oid) ops

/-- The bidirectional-map invariant of the monitor, with the bookkeeping
facts needed to push it through `Register` and `Remove`: both descriptor
maps have distinct keys, each is the transpose of the other, owner ids are
bounded by the registry counter, and descriptors are bounded by the next
fresh kernel descriptor. -/
def FMInv (st : FMState) : Prop :=
  (mapKeys st.oid_wfd_map_).Nodup ∧
  (mapKeys st.wfd_oid_map_).Nodup ∧
  (∀ p ∈ st.oid_wfd_map_, (p.2, p.1) ∈ st.wfd_oid_map_) ∧
  (∀ p ∈ st.wfd_oid_map_, (p.2, p.1) ∈ st.oid_wfd_map_) ∧
  (∀ p ∈ st.oid_wfd_map_, p.1 ≤ st.registry_.register_handle_counter_) ∧
  (∀ p ∈ st.wfd_oid_map_, p.1 < st.os.next_wd) ∧
  (∀ p ∈ st.os.watches, p.1 < st.os.next_wd)

theorem mapFind_eq_none_of_bound {α : Type} {m : List (Int × α)} {k : Int}
    (h : ∀ p ∈ m, p.1 ≠ k) : mapFind m k = none := by
  rw [mapFind_eq_none_iff]
  intro hk
  obtain ⟨p, hp, hpk⟩ := List.mem_map.mp hk
  exact h p hp hpk

theorem FMInv_register (st : FMState) (node : Node) (osOk : Bool)
    (hfresh : osOk = true → inotifyFindPath st.os.watches node.filename = none)
    (hinv : FMInv st) : FMInv (st.Register node osOk).2 := by
  obtain ⟨h1, h2, h3, h4, h5, h6, h7⟩ := hinv
  cases osOk with
  | false =>
    have hstep : (st.Register node false).2 =
        { st with registry_ :=
            { register_map_ := mapEmplace st.registry_.register_map_
                (st.registry_.register_handle_counter_ + 1) node,
              register_handle_counter_ := st.registry_.register_handle_counter_ + 1 } } := by
      simp [FMState.Register, FMState.AddWatcher, Registry.Register]
    rw [hstep]
    unfold FMInv
    dsimp only
    refine ⟨h1, h2, h3, h4, ?_, h6, h7⟩
    intro p hp
    have := h5 p hp
    omega
  | true =>
    have hf := hfresh rfl
    have hoid : mapFind st.oid_wfd_map_ (st.registry_.register_handle_counter_ + 1)
        = none := by
      refine mapFind_eq_none_of_bound fun p hp => ?_
      have := h5 p hp
      omega
    have hwd : mapFind st.wfd_oid_map_ st.os.next_wd = none := by
      refine mapFind_eq_none_of_bound fun p hp => ?_
      have := h6 p hp
      omega
    have hstep : (st.Register node true).2 =
        { registry_ :=
            { register_map_ := mapEmplace st.registry_.register_map_
                (st.registry_.register_handle_counter_ + 1) node,
              register_handle_counter_ := st.registry_.register_handle_counter_ + 1 },
          oid_wfd_map_ := st.oid_wfd_map_ ++
            [(st.registry_.register_handle_counter_ + 1, st.os.next_wd)],
          wfd_oid_map_ := st.wfd_oid_map_ ++
            [(st.os.next_wd, st.registry_.register_handle_counter_ + 1)],
          os := { watches := st.os.watches ++ [(st.os.next_wd, node.filename)],
                  next_wd := st.os.next_wd + 1 } } := by
      simp [FMState.Register, FMState.AddWatcher, Registry.Register,
        inotify_add_watch, hf, mapEmplace, hoid, hwd]
    rw [hstep]
    unfold FMInv
    dsimp only
    refine ⟨?_, ?_, ?_, ?_, ?_, ?_, ?_⟩
    · simp only [mapKeys, List.map_append, List.map_cons, List.map_nil]
      rw [List.nodup_append]
      refine ⟨h1, List.nodup_singleton _, ?_⟩
      intro k hk hk'
      simp at hk'
      obtain ⟨p, hp, hpk⟩ := List.mem_map.mp hk
      have := h5 p hp
      omega
    · simp only [mapKeys, List.map_append, List.map_cons, List.map_nil]
      rw [List.nodup_append]
      refine ⟨h2, List.nodup_singleton _, ?_⟩
      intro k hk hk'
      simp at hk'
      obtain ⟨p, hp, hpk⟩ := List.mem_map.mp hk
      have := h6 p hp
      omega
    · intro p hp
      rcases List.mem_append.mp hp with hp | hp
      · exact List.mem_append_left _ (h3 p hp)
      · simp at hp
        subst hp
        simp
    · intro p hp
      rcases List.mem_append.mp hp with hp | hp
      · exact List.mem_append_left _ (h4 p hp)
      · simp at hp
        subst hp
        simp
    · intro p hp
      rcases List.mem_append.mp hp with hp | hp
      · have := h5 p hp
        omega
      · simp at hp
        subst hp
        simp
    · intro p hp
      rcases List.mem_append.mp hp with hp | hp
      · have := h6 p hp
        omega
      · simp at hp
        subst hp
        simp
    · intro p hp
      rcases List.mem_append.mp hp with hp | hp
      · have := h7 p hp
        omega
      · simp only [List.mem_singleton] at hp
        subst hp
        show st.os.next_wd < st.os.next_wd + 1
        omega

theorem FMInv_remove (st : FMState) (oid : Int)
    (hinv : FMInv st) : FMInv (st.Remove oid) := by
  obtain ⟨h1, h2, h3, h4, h5, h6, h7⟩ := hinv
  unfold FMState.Remove
  cases hfind : mapFind st.oid_wfd_map_ oid with
  | none => exact ⟨h1, h2, h3, h4, h5, h6, h7⟩
  | some wd =>
    have hmem_fwd : (oid, wd) ∈ st.oid_wfd_map_ := mapFind_mem hfind
    have hmem_bwd : (wd, oid) ∈ st.wfd_oid_map_ := h3 _ hmem_fwd
    refine ⟨(mapKeys_erase_sublist _ _).nodup h1,
            (mapKeys_erase_sublist _ _).nodup h2, ?_, ?_, ?_, ?_, ?_⟩
    · intro p hp
      obtain ⟨hp, hpk⟩ := (mem_mapErase_iff _ _ _).mp hp
      rw [mem_mapErase_iff]
      refine ⟨h3 p hp, ?_⟩
      intro hpw
      have hpw' : p.2 = wd := hpw
      have hmem : (wd, p.1) ∈ st.wfd_oid_map_ := hpw' ▸ h3 p hp
      exact hpk (nodup_keys_unique h2 hmem hmem_bwd)
    · intro p hp
      obtain ⟨hp, hpk⟩ := (mem_mapErase_iff _ _ _).mp hp
      rw [mem_mapErase_iff]
      refine ⟨h4 p hp, ?_⟩
      intro hpo
      have hpo' : p.2 = oid := hpo
      have hmem : (oid, p.1) ∈ st.oid_wfd_map_ := hpo' ▸ h4 p hp
      exact hpk (nodup_keys_unique h1 hmem hmem_fwd)
    · intro p hp
      exact h5 p ((mem_mapErase_iff _ _ _).mp hp).1
    · intro p hp
      exact h6 p ((mem_mapErase_iff _ _ _).mp hp).1
    · intro p hp
      exact h7 p ((mem_mapErase_iff _ _ _).mp
        (by simpa [inotify_rm_watch] using hp)).1

theorem runFMOps_inv (ops : List FMOp) (st : FMState)
    (hfresh : freshPaths st ops = true) (hinv : FMInv st) :
    FMInv (runFMOps st ops) := by
  induction ops generalizing st with
  | nil => simpa [runFMOps] using hinv
  | cons op ops ih =>
    cases op with
    | register node osOk =>
      simp only [freshPaths, Bool.and_eq_true, Option.isNone_iff_eq_none] at hfresh
      exact ih _ hfresh.2 (FMInv_register st node osOk (fun _ => hfresh.1) hinv)
    | remove oid =>
      simp only [freshPaths] at hfresh
      exact ih _ hfresh (FMInv_remove st oid hinv)

/-- C4 amended: for every sequence of registrations and removals in which
each registered path is not already watched at the time of its registration
(so the kernel hands out a fresh descriptor each time), the two descriptor
maps are mutual inverses: distinct keys on both sides and exactly the same
pairs, transposed.  Registering the same path twice while the first watch
is live violates this — see `duplicate_path_counterexample`. -/
theorem descriptor_maps_mutual_inverse (ops : List FMOp)
    (hfresh : freshPaths fmInit ops = true) :
    (mapKeys (runFMOps fmInit ops).oid_wfd_map_).Nodup ∧
    (mapKeys (runFMOps fmInit ops).wfd_oid_map_).Nodup ∧
    (∀ p ∈ (runFMOps fmInit ops).oid_wfd_map_,
      (p.2, p.1) ∈ (runFMOps fmInit ops).wfd_oid_map_) ∧
    (∀ p ∈ (runFMOps fmInit ops).wfd_oid_map_,
      (p.2, p.1) ∈ (runFMOps fmInit ops).oid_wfd_map_) := by
  have h := runFMOps_inv ops fmInit hfresh
    (by refine ⟨?_, ?_, ?_, ?_, ?_, ?_, ?_⟩ <;> simp [fmInit, mapKeys])
  exact ⟨h.1, h.2.1, h.2.2.1, h.2.2.2.1⟩

/-- Witness for C4 at a concrete operation sequence: two distinct paths
registered, then the first removed. -/
theorem descriptor_maps_mutual_inverse_witness :
    freshPaths fmInit
      [FMOp.register { filename := "a.txt", event_mask := IN_MODIFY, callback := 1 } true,
       FMOp.register { filename := "b.txt", event_mask := IN_MODIFY, callback := 2 } true,
       FMOp.remove 1] = true ∧
    (∀ p ∈ (runFMOps fmInit
      [FMOp.register { filename := "a.txt", event_mask := IN_MODIFY, callback := 1 } true,
       FMOp.register { filename := "b.txt", event_mask := IN_MODIFY, callback := 2 } true,
       FMOp.remove 1]).oid_wfd_map_,
      (p.2, p.1) ∈ (runFMOps fmInit
      [FMOp.register { filename := "a.txt", event_mask := IN_MODIFY, callback := 1 } true,
       FMOp.register { filename := "b.txt", event_mask := IN_MODIFY, callback := 2 } true,
       FMOp.remove 1]).wfd_oid_map_) :=
  ⟨by decide,
   (descriptor_maps_mutual_inverse
     [FMOp.register { filename := "a.txt", event_mask := IN_MODIFY, callback := 1 } true,
      FMOp.register { filename := "b.txt", event_mask := IN_MODIFY, callback := 2 } true,
      FMOp.remove 1] (by decide)).2.2.1⟩

/-! ## The worker pool (`thread_pool.hpp`)

The constructor stores `std::max(pool_size, 1)` in `pool_size_` but its
creation loop `for (int i = 0; i < pool_size; i++)` iterates over the raw
argument; `Size()` returns `pool_size_`; `PushTask` returns a
default-constructed (invalid) `std::future` without touching the queue when
`shutdown_` is set.  Tasks are opaque tokens; workers execute only tasks
taken from `task_queue_`. -/

structure Future where
  valid : Bool
deriving DecidableEq

structure ThreadPoolState where
  pool_size_ : Int
  shutdown_ : Bool
  thread_list_len : Nat
  task_queue_ : List Nat
deriving DecidableEq

/-- `ThreadPool::ThreadPool(int pool_size)`: `pool_size_` is clamped, the
number of threads created is the number of loop iterations,
`max(pool_size, 0)`. -/
def mkThreadPool (pool_size : Int) : ThreadPoolState :=
  { pool_size_ := max pool_size 1,
    shutdown_ := false,
    thread_list_len := pool_size.toNat,
    task_queue_ := [] }

/-- `ThreadPool::Size`. -/
def ThreadPoolState.Size (st : ThreadPoolState) : Int := st.pool_size_

/-- The start of `ThreadPool::~ThreadPool`: sets the shutdown flag (queued
tasks then drain and the workers are joined). -/
def ThreadPoolState.BeginShutdown (st : ThreadPoolState) : ThreadPoolState :=
  { st with shutdown_ := true }

/-- `ThreadPool::PushTask`: when `shutdown_` is set it returns an empty
future object and does not enqueue; otherwise the task is queued and a
valid future is returned. -/
def ThreadPoolState.PushTask (st : ThreadPoolState) (task : Nat) :
    Future × ThreadPoolState :=
  if st.shutdown_ then ({ valid := false }, st)
  else ({ valid := true }, { st with task_queue_ := st.task_queue_ ++ [task] })

/-- C6 refuted on the code: at `pool_size = 0` the constructor creates 0
worker threads — the creation loop bounds on the unclamped argument — while
`Size()` reports 1; the claim (and the constructor comment in the source)
say `max(0, 1) = 1` worker is created. -/
theorem thread_pool_size_zero_creates_no_workers :
    (mkThreadPool 0).thread_list_len = 0 ∧
    (mkThreadPool 0).Size = 1 ∧
    (mkThreadPool 0).thread_list_len ≠ (max (0 : Int) 1).toNat := by decide

/-- C7: once shutdown has begun, `PushTask` returns an invalid future and
leaves the whole pool state — in particular the task queue — unchanged, so
the task is neither enqueued nor ever executed (workers only execute tasks
taken from the queue). -/
theorem push_task_after_shutdown_fails (st : ThreadPoolState) (task : Nat)
    (h : st.shutdown_ = true) :
    ((st.PushTask task).1).valid = false ∧ (st.PushTask task).2 = st := by
  simp [ThreadPoolState.PushTask, h]

/-- Witness for C7 on a freshly shut-down pool of size 2. -/
theorem push_task_after_shutdown_fails_witness :
    ((mkThreadPool 2).BeginShutdown.shutdown_ = true) ∧
    (((mkThreadPool 2).BeginShutdown.PushTask 5).1).valid = false ∧
    ((mkThreadPool 2).BeginShutdown.PushTask 5).2 = (mkThreadPool 2).BeginShutdown :=
  ⟨by decide,
   (push_task_after_shutdown_fails (mkThreadPool 2).BeginShutdown 5 (by decide)).1,
   (push_task_after_shutdown_fails (mkThreadPool 2).BeginShutdown 5 (by decide)).2⟩

/-! ## The `FileMonitor` constructor (`file_monitor_impl.hpp`) -/

/-- Opaque token for the `FileMonitor::Impl::Callback` monitoring-loop task
pushed by the `Impl` constructor. -/
def monitorCallbackTask : Nat := 0

/-- `FileMonitor::FileMonitor(size_t thread_pool_size)`: sizes below 2 are
raised to 2, a fresh pool of that size is created, and the `Impl`
constructor (when `inotify_init` succeeds, modelled by `inotifyOk`) pushes
the monitoring `Callback` onto the pool as a task. -/
def fileMonitorCtorPool (thread_pool_size : Nat) (inotifyOk : Bool) :
    ThreadPoolState :=
  let sz := if thread_pool_size < 2 then 2 else thread_pool_size
  let pool := mkThreadPool (Int.ofNat sz)
  if inotifyOk then (pool.PushTask monitorCallbackTask).2 else pool

/-- C10: for any requested size below 2 the constructed pool has size
exactly 2 — both as reported by `Size()` and as worker threads created —
and the monitoring `Callback` task is pushed onto the pool at construction,
occupying one worker for the lifetime of the monitor. -/
theorem file_monitor_small_pool_clamped_to_two (n : Nat) (hn : n < 2) :
    (fileMonitorCtorPool n true).Size = 2 ∧
    (fileMonitorCtorPool n true).thread_list_len = 2 ∧
    (fileMonitorCtorPool n true).task_queue_ = [monitorCallbackTask] := by
  simp only [fileMonitorCtorPool, if_pos hn]
  decide

/-- Witness for C10 at requested size 0. -/
theorem file_monitor_small_pool_clamped_to_two_witness :
    (0 < 2) ∧
    ((fileMonitorCtorPool 0 true).Size = 2 ∧
     (fileMonitorCtorPool 0 true).thread_list_len = 2 ∧
     (fileMonitorCtorPool 0 true).task_queue_ = [monitorCallbackTask]) :=
  ⟨by decide, file_monitor_small_pool_clamped_to_two 0 (by decide)⟩

/-! ## The hot-reload file keeper (`file_keeper.hpp`) -/

/-- Modelled from the spec: the bodies of `FileKeeper::GetBuffer` and of the
`DoubleBuffer` it delegates to live in
`iter/datamanager/detail/file_keeper_impl.hpp` and
`iter/datamanager/double_buffer.hpp`, which are not among the sources.  Per
the spec, the keeper holds two buffer slots of which exactly one is active
(reader-visible) at any instant. -/
structure FileKeeperState (Buffer : Type) where
  slot_a : Buffer
  slot_b : Buffer
  active_is_a : Bool

/-- The currently published (active) snapshot. -/
def FileKeeperState.activeSnapshot {B : Type} (fk : FileKeeperState B) : B :=
  if fk.active_is_a then fk.slot_a else fk.slot_b

/-- Modelled from the spec: `GetBuffer` yields the currently published
snapshot together with a success flag; it never reports failure. -/
def FileKeeperState.GetBuffer {B : Type} (fk : FileKeeperState B) : Bool × B :=
  (true, fk.activeSnapshot)

/-- Modelled from the spec: construction performs a synchronous initial
load; on load failure no instance is produced, on success both slots start
from the loaded snapshot with slot A active. -/
def FileKeeperState.construct {B : Type} (initial : Option B) :
    Option (FileKeeperState B) :=
  initial.map fun b => { slot_a := b, slot_b := b, active_is_a := true }

/-- Modelled from the spec: one reload — on failure (`none`) the active
slot is left untouched and the previous data stays authoritative; on
success the inactive slot receives the new snapshot and is republished. -/
def FileKeeperState.reload {B : Type} (fk : FileKeeperState B) :
    Option B → FileKeeperState B
  | none => fk
  | some b =>
      if fk.active_is_a then { fk with slot_b := b, active_is_a := false }
      else { fk with slot_a := b, active_is_a := true }

/-- A sequence of reloads, each succeeding or failing. -/
def runReloads {B : Type} (fk : FileKeeperState B) (rs : List (Option B)) :
    FileKeeperState B :=
  rs.foldl FileKeeperState.reload fk

/-- C9: on a constructed keeper, after any sequence of successful and
failed reloads, `GetBuffer` reports success and yields exactly the
currently published snapshot, and a further failed reload changes
nothing — failures are never surfaced to the reader. -/
theorem get_buffer_never_fails {B : Type} (fk : FileKeeperState B)
    (rs : List (Option B)) :
    (runReloads fk rs).GetBuffer = (true, (runReloads fk rs).activeSnapshot) ∧
    runReloads fk (rs ++ [none]) = runReloads fk rs := by
  refine ⟨rfl, ?_⟩
  simp [runReloads, List.foldl_append, FileKeeperState.reload]

end Iter
